import Mathlib

/-!
# markov-bot-go: blog adapters and the staleness-driven orchestrator

A shallow embedding of `blog/mastodon.go`, `blog/ohagi.go` and
`cmd/lambda/main.go`.

* Go error values are a small inductive type with `fmt.Errorf("...%w...")`
  wrapping and `errors.Is`.
* The network is explicit: every function that talks to the platform takes the
  outcome of its HTTP exchange as an argument and returns, next to its Go
  results, the list of requests it handed to `client.Do`.
* The closures returned by `GetPostsFetcher` become a state record (the
  captured variables) and a step function `pull`.
* A cancelled `context.Context` (Ohagi) shows as an error of `client.Do`.
* Packages outside these files (`handler`, `persistence`, `config`, `time`)
  are parameters of the orchestrator; the two steps of package `handler` also
  have a model that follows the spec.
-/

set_option linter.unusedVariables false

namespace MarkovBot

/-! ## Go errors -/

/-- A package-level error variable (made once, by `errors.New`, when its
package is loaded), identified by its name. -/
structure Sentinel where
  name : String
  deriving DecidableEq, Repr

/-- Go error values: `sentinel v` is the value of the package-level variable
`v`; `new` is an error made during a call by `errors.New` or by a `fmt.Errorf`
without `%w`; `wrap before inner after` is
`fmt.Errorf(before + "%w" + after, inner)`. -/
inductive Error where
  | sentinel (v : Sentinel)
  | new (msg : String)
  | wrap (before : String) (inner : Error) (after : String)
  deriving DecidableEq, Repr

/-- Go `errors.Is(err, target)` for a target that is a package-level sentinel,
the way the repository uses it. Go compares error values by identity, not by
text: only the sentinel itself matches, directly or down the `%w` chain; an
error made during the call is a fresh value and never is the sentinel,
whatever its text. -/
def Error.Is : Error → Sentinel → Bool
  | .sentinel v, target => decide (v = target)
  | .new _, _ => false
  | .wrap _ inner _, target => Error.Is inner target

/-! ## HTTP exchanges -/

/-- Body handed to `http.NewRequest`. -/
inductive Payload where
  | empty
  | form (fields : List (String × String))
  | json (fields : List (String × String))
  deriving DecidableEq, Repr

/-- One request given to `client.Do`. `query` holds the parameters that the
code puts into `url.Values` (in the key order `Encode` emits them); parameters
written directly into the URL string stay in `url`. -/
structure Request where
  method : String
  url : String
  query : List (String × String)
  headers : List (String × String)
  body : Payload
  deriving DecidableEq, Repr

/-- What `io.ReadAll` followed by `json.Unmarshal` makes of a response body. -/
inductive Body (α : Type) where
  | readError (e : Error)
  | malformed (e : Error) (raw : String)
  | decoded (a : α)
  deriving Repr

/-- A response returned by `client.Do`. -/
structure Response (α : Type) where
  statusCode : Nat
  status : String
  body : Body α
  deriving Repr

/-- Outcome of building and sending one request. -/
inductive Exchange (α : Type) where
  | requestError (e : Error)
  | doError (e : Error)
  | response (r : Response α)
  deriving Repr

/-- Go results of a pull call: `([]string, bool, error)`. -/
structure PullResult where
  chunk : List String
  hasMore : Bool
  err : Option Error
  deriving DecidableEq, Repr

/-- Go results of a page fetch: `([]string, bool, string, error)`. -/
structure ChunkResult where
  chunk : List String
  hasNext : Bool
  next : String
  err : Option Error
  deriving DecidableEq, Repr

/-! ## Tag stripping: `regexp.MustCompile("<[^>]*?>")` -/

/-- Replace-all of the pattern `<[^>]*?>` by the empty string, as a scanner.
Outside a match (`inTag = false`) a `<` starts a match exactly when some `>`
follows it (`[^>]` accepts every other character, `<` and newline included),
and this is the leftmost match; inside a match (`inTag = true`) the lazy
`*?` ends it at the first `>`. Characters outside matches are copied. -/
def stripTags : Bool → List Char → List Char
  | _, [] => []
  | true, c :: rest => if c = '>' then stripTags false rest else stripTags true rest
  | false, c :: rest =>
      if c = '<' ∧ '>' ∈ rest then stripTags true rest else c :: stripTags false rest

/-- Go `tagPattern.ReplaceAllLiteralString(s, "")`. -/
def removeTags (s : String) : String := String.mk (stripTags false s.data)

/-! ## Mastodon adapter (`blog/mastodon.go`) -/

def MastodonStatusPublic : String := "public"
def MastodonStatusUnlisted : String := "unlisted"
def MastodonStatusPrivate : String := "private"
def MastodonStatusDirect : String := "direct"

structure MastodonClient where
  Domain : String
  AccessToken : String
  PostVisibility : String
  deriving DecidableEq, Repr

def NewMastodonClient (domain accessToken : String) (postVisibility : String) : MastodonClient :=
  MastodonClient.mk domain accessToken MastodonStatusUnlisted

/-- The anonymous struct decoded by `fetchPublicStatusesChunk`. -/
structure MastodonStatus where
  Id : String
  Content : String
  Visibility : String
  deriving DecidableEq, Repr

/-- The anonymous struct decoded by `FetchUserId`. -/
structure MastodonAccount where
  Id : String
  UserName : String
  deriving DecidableEq, Repr

/-- The anonymous struct decoded by `CreatePost`. -/
structure MastodonCreated where
  Id : String
  deriving DecidableEq, Repr

def MastodonClient.buildUrl (c : MastodonClient) (path : String) : String :=
  "https://" ++ c.Domain ++ path

def MastodonClient.authorization (c : MastodonClient) : String × String :=
  ("Authorization", "Bearer " ++ c.AccessToken)

/-- URL built at the top of `fetchPublicStatusesChunk`. -/
def MastodonClient.statusesUrl (c : MastodonClient) (userId : String) (count : Nat)
    (maxId : String) : String :=
  let url := c.buildUrl ("/api/v1/accounts/" ++ userId ++ "/statuses?limit=" ++ toString count
    ++ "&exclude_reblogs=1&exclude_replies=1")
  if maxId ≠ "" then url ++ "&max_id=" ++ maxId else url

def MastodonClient.statusesRequest (c : MastodonClient) (userId : String) (count : Nat)
    (maxId : String) : Request :=
  Request.mk "GET" (c.statusesUrl userId count maxId) [] [c.authorization] Payload.empty

/-- The loop of `fetchPublicStatusesChunk` over the decoded page. -/
def mastodonChunk : List MastodonStatus → List String
  | [] => []
  | v :: rest =>
      if v.Visibility = MastodonStatusPrivate ∨ v.Visibility = MastodonStatusDirect then
        mastodonChunk rest
      else
        removeTags v.Content :: mastodonChunk rest

/-- Go `statuses[len(statuses)-1].Id` (only evaluated on a non-empty page). -/
def lastStatusId (statuses : List MastodonStatus) : String :=
  match statuses.getLast? with
  | some v => v.Id
  | none => ""

def MastodonClient.fetchPublicStatusesChunk (c : MastodonClient) (userId : String)
    (count : Nat) (maxId : String) (x : Exchange (List MastodonStatus)) :
    ChunkResult × List Request :=
  let req := c.statusesRequest userId count maxId
  match x with
  | .requestError e => (ChunkResult.mk [] false "" (some e), [])
  | .doError e => (ChunkResult.mk [] false "" (some (Error.wrap "get statuses: " e "")), [req])
  | .response r =>
    match r.body with
    | .readError e => (ChunkResult.mk [] false "" (some e), [req])
    | .malformed e raw =>
        (ChunkResult.mk [] false ""
          (some (Error.wrap "unmarshal response: " e ("(" ++ raw ++ ")"))), [req])
    | .decoded statuses =>
        if statuses.length = 0 then
          (ChunkResult.mk [] false "" none, [req])
        else
          (ChunkResult.mk (mastodonChunk statuses) true (lastStatusId statuses) none, [req])

def MastodonClient.verifyRequest (c : MastodonClient) : Request :=
  Request.mk "GET" (c.buildUrl "/api/v1/accounts/verify_credentials") [] [c.authorization]
    Payload.empty

def MastodonClient.FetchUserId (c : MastodonClient) (x : Exchange MastodonAccount) :
    (String × Option Error) × List Request :=
  let req := c.verifyRequest
  match x with
  | .requestError e => (("", some e), [])
  | .doError e => (("", some (Error.wrap "get account details: " e "")), [req])
  | .response r =>
    match r.body with
    | .readError _ => (("", none), [req])
    | .malformed e _ => (("", some (Error.wrap "unmarshal response: " e "")), [req])
    | .decoded account => ((account.Id, none), [req])

/-- Variables captured by the closure that `GetPostsFetcher` returns. -/
structure MastodonFetcher where
  userId : String
  maxId : String
  deriving DecidableEq, Repr

def MastodonClient.GetPostsFetcher (c : MastodonClient) : MastodonFetcher :=
  MastodonFetcher.mk "" ""

/-- What the platform answers during one pull call: `identity` is consulted
only when the closure resolves the user id, `page` when it fetches a page. -/
structure MastodonWorld where
  identity : Exchange MastodonAccount
  page : Exchange (List MastodonStatus)

/-- One call of the closure returned by `GetPostsFetcher`: the new values of
the captured variables, the Go results, and the requests sent. -/
def MastodonClient.pull (c : MastodonClient) (st : MastodonFetcher) (w : MastodonWorld) :
    MastodonFetcher × PullResult × List Request :=
  let resolved : (String × Option Error) × List Request :=
    if st.userId = "" then c.FetchUserId w.identity else ((st.userId, none), [])
  match resolved.1.2 with
  | some err => (st, PullResult.mk [] false (some (Error.wrap "fetch user id: " err "")), resolved.2)
  | none =>
    let userId := resolved.1.1
    let chunkSize := 100
    let fetched := c.fetchPublicStatusesChunk userId chunkSize st.maxId w.page
    match fetched.1.err with
    | some err => (MastodonFetcher.mk userId st.maxId, PullResult.mk [] false (some err),
        resolved.2 ++ fetched.2)
    | none => (MastodonFetcher.mk userId fetched.1.next,
        PullResult.mk fetched.1.chunk fetched.1.hasNext none, resolved.2 ++ fetched.2)

/-- Form and request of `CreatePost`. -/
def MastodonClient.postRequest (c : MastodonClient) (payload : String) : Request :=
  Request.mk "POST" (c.buildUrl "/api/v1/statuses") []
    [("Content-Type", "application/x-www-form-urlencoded"), c.authorization]
    (Payload.form [("status", payload), ("visibility", c.PostVisibility)])

def MastodonClient.CreatePost (c : MastodonClient) (payload : String)
    (x : Exchange MastodonCreated) : Option Error × List Request :=
  let req := c.postRequest payload
  match x with
  | .requestError e => (some e, [])
  | .doError e => (some (Error.wrap "post status: " e ""), [req])
  | .response r =>
    match r.body with
    | .readError e => (some e, [req])
    | .malformed e _ => (some (Error.wrap "unmarshal response: " e ""), [req])
    | .decoded _ => (none, [req])

/-! ## HTML entity decoding: Go `html.UnescapeString`

The standard-library function is modelled after its source (`html/escape.go`):
a scan for `&`, and at each `&` the function `unescapeEntity`. Its tables of
named references are a parameter. -/

/-- Go's tables `entity` (one rune) and `entity2` (two runes), keyed by the
reference name, the trailing `;` included when the reference has one. -/
structure EntityTable where
  entity : String → Option Char
  entity2 : String → Option (Char × Char)

/-- Go `replacementTable`: Windows-1252 code points 0x80..0x9F. -/
def replacementTable : List Nat :=
  [0x20AC, 0x0081, 0x201A, 0x0192, 0x201E, 0x2026, 0x2020, 0x2021,
   0x02C6, 0x2030, 0x0160, 0x2039, 0x0152, 0x008D, 0x017D, 0x008F,
   0x0090, 0x2018, 0x2019, 0x201C, 0x201D, 0x2022, 0x2013, 0x2014,
   0x02DC, 0x2122, 0x0161, 0x203A, 0x0153, 0x009D, 0x017E, 0x0178]

/-- Arithmetic on Go's `rune` (int32) wraps around. -/
def wrap32 (n : Int) : Int := (n + 2 ^ 31) % 2 ^ 32 - 2 ^ 31

/-- Value of a digit of a numeric reference, `none` when `c` is not one. -/
def digitValue (hex : Bool) (c : Char) : Option Int :=
  if '0' ≤ c ∧ c ≤ '9' then some ((c.toNat : Int) - 48)
  else if hex ∧ 'a' ≤ c ∧ c ≤ 'f' then some ((c.toNat : Int) - 97 + 10)
  else if hex ∧ 'A' ≤ c ∧ c ≤ 'F' then some ((c.toNat : Int) - 65 + 10)
  else none

/-- Go `utf8.EncodeRune`: what is not a valid rune is written as U+FFFD. -/
def encodeRune (x : Int) : Char :=
  if x < 0 ∨ x > 0x10FFFF ∨ (0xD800 ≤ x ∧ x ≤ 0xDFFF) then Char.ofNat 0xFFFD
  else Char.ofNat x.toNat

/-- The rune written for a numeric reference with value `x`: Windows-1252
code points are replaced, invalid ones become U+FFFD. -/
def numericRune (x : Int) : Char :=
  if 0x80 ≤ x ∧ x ≤ 0x9F then encodeRune (replacementTable.getD (x - 0x80).toNat 0xFFFD)
  else if x = 0 ∨ (0xD800 ≤ x ∧ x ≤ 0xDFFF) ∨ x > 0x10FFFF then encodeRune 0xFFFD
  else encodeRune x

def isAlnum (c : Char) : Bool :=
  decide (('a' ≤ c ∧ c ≤ 'z') ∨ ('A' ≤ c ∧ c ≤ 'Z') ∨ ('0' ≤ c ∧ c ≤ '9'))

def longestEntityWithoutSemicolon : Nat := 6

/-- Go `unescapeEntity` with `attribute = false`. `s` is `b[src:]` and starts
with `&`; the result is what is written at `dst` and how far `src` moves. -/
def unescapeEntity (t : EntityTable) (s : List Char) : List Char × Nat :=
  if s.length ≤ 1 then (s.take 1, 1)
  else if s.get? 1 = some '#' then
    if s.length ≤ 3 then (s.take 1, 1)
    else
      let hex : Bool := decide (s.get? 2 = some 'x' ∨ s.get? 2 = some 'X')
      let start := if hex then 3 else 2
      let digits := (s.drop start).takeWhile (fun c => (digitValue hex c).isSome)
      let base : Int := if hex then 16 else 10
      let x := digits.foldl (fun x c => wrap32 (base * x + (digitValue hex c).getD 0)) 0
      let stop := start + digits.length
      let i := if s.get? stop = some ';' then stop + 1 else stop
      if i ≤ 3 then (s.take 1, 1) else ([numericRune x], i)
  else
    let stop := 1 + ((s.drop 1).takeWhile isAlnum).length
    let i := if s.get? stop = some ';' then stop + 1 else stop
    let entityName := (s.take i).drop 1
    if entityName.length = 0 then (s.take i, i)
    else
      match t.entity (String.mk entityName) with
      | some x => ([x], i)
      | none =>
        match t.entity2 (String.mk entityName) with
        | some x => ([x.1, x.2], i)
        | none =>
          let maxLen := min (entityName.length - 1) longestEntityWithoutSemicolon
          let found := ((List.range' 2 (maxLen - 1)).reverse).findSome? (fun j =>
            (t.entity (String.mk (entityName.take j))).map (fun x => (([x] : List Char), j + 1)))
          match found with
          | some r => r
          | none => (s.take i, i)

/-- The loop of `UnescapeString`: `skip` characters were already consumed by
the last `unescapeEntity`; every other character is copied, except `&`, where
`unescapeEntity` decides. -/
def unescapeLoop (t : EntityTable) : Nat → List Char → List Char
  | _, [] => []
  | skip + 1, _ :: rest => unescapeLoop t skip rest
  | 0, c :: rest =>
      if c = '&' then
        let r := unescapeEntity t (c :: rest)
        r.1 ++ unescapeLoop t (r.2 - 1) rest
      else c :: unescapeLoop t 0 rest

/-- Go `html.UnescapeString`. -/
def UnescapeString (t : EntityTable) (s : String) : String :=
  String.mk (unescapeLoop t 0 s.data)

/-- The entries of Go's `entity` table for the references of XML:
`amp`, `lt`, `gt`, `quot` (with and without `;`) and `apos;`. -/
def xmlEntity (name : String) : Option Char :=
  if name = "amp;" ∨ name = "amp" then some '&'
  else if name = "lt;" ∨ name = "lt" then some '<'
  else if name = "gt;" ∨ name = "gt" then some '>'
  else if name = "quot;" ∨ name = "quot" then some '"'
  else if name = "apos;" then some (Char.ofNat 39)
  else none

/-- The table with the XML references only (no two-rune reference is among them). -/
def xmlEntities : EntityTable := EntityTable.mk xmlEntity (fun _ => none)

/-! ## Ohagi adapter (`blog/ohagi.go`) -/

def OhagiPostVisibilityPublic : String := "public"
def OhagiPostVisibilitySemiPublic : String := "semi-public"
def OhagiPostVisibilityFollowersOnly : String := "followers-only"
def OhagiPostVisibilityDirect : String := "direct"

structure OhagiClient where
  Origin : String
  AccessToken : String
  PostVisibility : String
  deriving DecidableEq, Repr

def NewOhagiClient (origin accessToken postVisibility : String) : OhagiClient :=
  OhagiClient.mk origin accessToken postVisibility

/-- The anonymous struct decoded by `fetchPosts`. -/
structure OhagiPost where
  ID : String
  PaginationID : String
  Content : String
  Visibility : String
  deriving DecidableEq, Repr

/-- The anonymous struct decoded by `fetchCredentialAccountID`. -/
structure OhagiAccount where
  ID : String
  deriving DecidableEq, Repr

/-- Ohagi builds its URL with `url.Parse` before the request: that step can
fail too. -/
inductive OhagiExchange (α : Type) where
  | urlError (e : Error)
  | sent (x : Exchange α)
  deriving Repr

/-- The string handed to `url.Parse` by `buildURL`. -/
def OhagiClient.buildURL (c : OhagiClient) (apiPath : String) : String :=
  c.Origin ++ apiPath

/-- Header set by `createRequest`. -/
def OhagiClient.authorization (c : OhagiClient) : String × String :=
  ("Authorization", "Bearer " ++ c.AccessToken)

/-- The query of `fetchPosts` as `queries.Encode()` lists it (sorted by key);
`lt_id` is set only for a non-empty pagination id. -/
def ohagiPostsQuery (paginationID : String) : List (String × String) :=
  [("exclude_reblogs", "true"), ("exclude_replies", "true")]
    ++ (if paginationID ≠ "" then [("lt_id", paginationID)] else [])
    ++ [("order", "desc")]

def OhagiClient.postsRequest (c : OhagiClient) (accountID paginationID : String) : Request :=
  Request.mk "GET" (c.buildURL ("/api/v1/accounts/" ++ accountID ++ "/posts"))
    (ohagiPostsQuery paginationID) [c.authorization] Payload.empty

/-- The loop of `fetchPosts` over the decoded page. -/
def ohagiChunk (t : EntityTable) : List OhagiPost → List String
  | [] => []
  | v :: rest =>
      if v.Visibility = OhagiPostVisibilityFollowersOnly ∨ v.Visibility = OhagiPostVisibilityDirect then
        ohagiChunk t rest
      else
        UnescapeString t (removeTags v.Content) :: ohagiChunk t rest

/-- Go `posts[len(posts)-1].PaginationID` (only evaluated on a non-empty page). -/
def lastPaginationID (posts : List OhagiPost) : String :=
  match posts.getLast? with
  | some v => v.PaginationID
  | none => ""

def OhagiClient.fetchPosts (c : OhagiClient) (t : EntityTable) (accountID paginationID : String)
    (x : OhagiExchange (List OhagiPost)) : ChunkResult × List Request :=
  let req := c.postsRequest accountID paginationID
  match x with
  | .urlError e => (ChunkResult.mk [] false "" (some e), [])
  | .sent (.requestError e) => (ChunkResult.mk [] false "" (some e), [])
  | .sent (.doError e) => (ChunkResult.mk [] false "" (some e), [req])
  | .sent (.response r) =>
    match r.body with
    | .readError e => (ChunkResult.mk [] false "" (some e), [req])
    | .malformed e raw =>
        (ChunkResult.mk [] false ""
          (some (Error.wrap "unmarshal response: " e ("(" ++ raw ++ ")"))), [req])
    | .decoded posts =>
        if posts.length = 0 then
          (ChunkResult.mk [] false "" none, [req])
        else
          (ChunkResult.mk (ohagiChunk t posts) true (lastPaginationID posts) none, [req])

def OhagiClient.credentialRequest (c : OhagiClient) : Request :=
  Request.mk "GET" (c.buildURL "/api/v1/session/credential_account") [] [c.authorization]
    Payload.empty

def OhagiClient.fetchCredentialAccountID (c : OhagiClient) (x : OhagiExchange OhagiAccount) :
    (String × Option Error) × List Request :=
  let req := c.credentialRequest
  match x with
  | .urlError e => (("", some e), [])
  | .sent (.requestError e) => (("", some e), [])
  | .sent (.doError e) => (("", some e), [req])
  | .sent (.response r) =>
    match r.body with
    | .readError _ => (("", none), [req])
    | .malformed e _ => (("", some (Error.wrap "unmarshal response: " e "")), [req])
    | .decoded account => ((account.ID, none), [req])

/-- Variables captured by the closure that `GetPostsFetcher` returns. -/
structure OhagiFetcher where
  accountID : String
  paginationID : String
  deriving DecidableEq, Repr

def OhagiClient.GetPostsFetcher (c : OhagiClient) : OhagiFetcher :=
  OhagiFetcher.mk "" ""

/-- What the platform answers during one pull call. -/
structure OhagiWorld where
  identity : OhagiExchange OhagiAccount
  page : OhagiExchange (List OhagiPost)

/-- One call of the closure returned by `GetPostsFetcher`. -/
def OhagiClient.pull (c : OhagiClient) (t : EntityTable) (st : OhagiFetcher) (w : OhagiWorld) :
    OhagiFetcher × PullResult × List Request :=
  let resolved : (String × Option Error) × List Request :=
    if st.accountID = "" then c.fetchCredentialAccountID w.identity
    else ((st.accountID, none), [])
  match resolved.1.2 with
  | some err =>
      (st, PullResult.mk [] false (some (Error.wrap "fetch account id: " err "")), resolved.2)
  | none =>
    let accountID := resolved.1.1
    let fetched := c.fetchPosts t accountID st.paginationID w.page
    match fetched.1.err with
    | some err => (OhagiFetcher.mk accountID st.paginationID, PullResult.mk [] false (some err),
        resolved.2 ++ fetched.2)
    | none => (OhagiFetcher.mk accountID fetched.1.next,
        PullResult.mk fetched.1.chunk fetched.1.hasNext none, resolved.2 ++ fetched.2)

/-- Request of `CreatePost`: the JSON object with `text` and `visibility`. -/
def OhagiClient.postRequest (c : OhagiClient) (payload : String) : Request :=
  Request.mk "POST" (c.buildURL "/api/v1/posts") []
    [c.authorization, ("Content-Type", "application/json")]
    (Payload.json [("text", payload ++ " #bot"), ("visibility", c.PostVisibility)])

/-- Ohagi `CreatePost`; the response body is never read (`json.Marshal` of two
strings cannot fail, its error branch is left out). -/
def OhagiClient.CreatePost (c : OhagiClient) (payload : String) (x : OhagiExchange Unit) :
    Option Error × List Request :=
  let req := c.postRequest payload
  match x with
  | .urlError e => (some e, [])
  | .sent (.requestError e) => (some e, [])
  | .sent (.doError e) => (some e, [req])
  | .sent (.response r) =>
    if r.statusCode ≠ 200 then
      (some (Error.new ("post failed: (status_code: " ++ toString r.statusCode ++ ", status: "
        ++ r.status ++ ")")), [req])
    else (none, [req])

/-! ## Orchestrator (`cmd/lambda/main.go`) -/

structure PostEvent where
  S3Region : String
  S3BucketName : String
  S3KeyPrefix : String
  deriving DecidableEq, Repr

/-- The fields of `config.BotConfig` that `requestHandler` reads (the fetch and
post clients are inside the two handler steps below). -/
structure BotConfig where
  ExpiresIn : Int
  FetchStatusCount : Int
  StateSize : Int
  MinWordsCount : Int
  deriving DecidableEq, Repr

/-- The packages `requestHandler` calls (`persistence`, `config`, `handler`,
`time`); `σ` is the state of a store, `τ` a `time.Time`.

* `Since mod` is the value of `time.Since(mod).Seconds()`: a finite float64,
  that is, a rational number;
* `BuildChain` returns the model store as it leaves it and its error;
* `GenerateAndPost` returns its error and the texts it published. -/
structure Services (σ τ : Type) where
  NewS3Store : String → String → String → Except Error σ
  Load : σ → Except Error String
  LoadBotConfig : String → Except Error BotConfig
  ModTime : σ → Except Error (τ × Bool)
  Since : τ → ℚ
  BuildChain : BotConfig → σ → σ × Option Error
  GenerateAndPost : BotConfig → σ → Option Error × List String

/-- A handler step that was invoked, with what it returned. -/
inductive Event where
  | build (err : Option Error)
  | generate (err : Option Error) (posted : List String)
  deriving DecidableEq, Repr

/-- What one invocation of `requestHandler` returns and does. -/
structure Run where
  err : Option Error
  trace : List Event
  deriving DecidableEq, Repr

def loadConfig {σ τ : Type} (s : Services σ τ) (store : σ) : Except Error BotConfig :=
  match s.Load store with
  | .error err => .error (Error.wrap "load config: " err "")
  | .ok data =>
    match s.LoadBotConfig data with
    | .error err => .error (Error.wrap "load bot config: " err "")
    | .ok conf => .ok conf

/-- Go `requestHandler`. `float64(conf.ExpiresIn)` is the integer itself (exact
up to 2^53 seconds). -/
def requestHandler {σ τ : Type} (s : Services σ τ) (e : PostEvent) : Run :=
  match s.NewS3Store e.S3Region e.S3BucketName (e.S3KeyPrefix ++ "/config.yml") with
  | .error err => Run.mk (some err) []
  | .ok confStore =>
  match loadConfig s confStore with
  | .error err => Run.mk (some err) []
  | .ok conf =>
  match s.NewS3Store e.S3Region e.S3BucketName (e.S3KeyPrefix ++ "/model") with
  | .error err => Run.mk (some err) []
  | .ok modelStore =>
  match s.ModTime modelStore with
  | .error err => Run.mk (some (Error.wrap "get modtime: " err "")) []
  | .ok (mod, ok) =>
    if !ok || decide ((conf.ExpiresIn : ℚ) < s.Since mod) then
      let built := s.BuildChain conf modelStore
      match built.2 with
      | some err => Run.mk (some (Error.wrap "build chain: " err "")) [Event.build (some err)]
      | none =>
        let posted := s.GenerateAndPost conf built.1
        match posted.1 with
        | some err => Run.mk (some (Error.wrap "generate and post: " err ""))
            [Event.build none, Event.generate (some err) posted.2]
        | none => Run.mk none [Event.build none, Event.generate none posted.2]
    else
      let posted := s.GenerateAndPost conf modelStore
      match posted.1 with
      | some err => Run.mk (some (Error.wrap "generate and post: " err ""))
          [Event.generate (some err) posted.2]
      | none => Run.mk none [Event.generate none posted.2]

/-- Number of invocations of the build step in a trace. -/
def buildCount : List Event → Nat
  | [] => 0
  | Event.build _ :: rest => buildCount rest + 1
  | Event.generate _ _ :: rest => buildCount rest

/-- Number of invocations of the generate+publish step in a trace. -/
def generateCount : List Event → Nat
  | [] => 0
  | Event.build _ :: rest => generateCount rest
  | Event.generate _ _ :: rest => generateCount rest + 1

/-- Everything published during a trace. -/
def published : List Event → List String
  | [] => []
  | Event.build _ :: rest => published rest
  | Event.generate _ posted :: rest => posted ++ published rest

/-! ### Package `handler`

`handler.BuildChain`, `handler.GenerateAndPost` and `handler.ErrGenerationFailed`
are code of the repository outside these files. -/

/-- Modelled from the spec: `handler.ErrGenerationFailed`, the distinguished
"generation failed" error by which callers tell "nothing to post" from other
failures. -/
def handler.ErrGenerationFailed : Sentinel := Sentinel.mk "handler.ErrGenerationFailed"

/-- Modelled from the spec: the persisted model, as far as the orchestrator
can tell models apart: the token sequences the tokenizer made of the text
items that were fed to the model builder. -/
abbrev handler.Model : Type := List (List String)

/-- Modelled from the spec: a model is semantically empty when it "contains no
usable transitions"; a token sequence gives a transition as soon as it has a
token. -/
def handler.hasTransitions (model : handler.Model) : Bool :=
  model.any (fun tokens => !tokens.isEmpty)

/-- Modelled from the spec: the build step "drives a full pull session to
exhaustion". The source is given by what the successive calls of its pull
function return; the session ends at the first call that returns an error
(the error is the result) or hasMore=false, and yields the items of all chunks
in order. A source with no further answer has nothing more to give. -/
def handler.fetchAll : List PullResult → Except Error (List String)
  | [] => .ok []
  | r :: rest =>
    match r.err with
    | some err => .error err
    | none =>
      if r.hasMore then
        match handler.fetchAll rest with
        | .error err => .error err
        | .ok items => .ok (r.chunk ++ items)
      else .ok r.chunk

/-- Modelled from the spec: `handler.BuildChain`, the build step
`build(source, tokenizer, chunkSizeHint, modelParams, sink)`: it "consumes the
pull function to exhaustion, feeding all chunks to the tokenizer/model-builder,
then persists a new model and freshness record"; when the pull fails the
build fails and the store is left as it was. The store is `none` while no
model is persisted. -/
def handler.BuildChain (source : List PullResult) (tokenizer : String → List String)
    (chunkSizeHint stateSize : Int) (store : Option handler.Model) :
    Option handler.Model × Option Error :=
  match handler.fetchAll source with
  | .error err => (store, some err)
  | .ok items => (some (items.map tokenizer), none)

/-- Modelled from the spec: `handler.GenerateAndPost`, the generate+publish
step `generateAndPost(sink, modelStore, minWordsCount, dryRun)`: "if the
persisted model is absent or semantically empty, generation fails with a
distinguished generation-failed error"; so it does "when the model yields no
usable output" (`generate` gives `none`); "otherwise generation produces
exactly one text and the sink's publish operation is invoked with it; publish
errors propagate". The second result lists the texts `publish` was invoked
with. -/
def handler.GenerateAndPost (publish : String → Option Error)
    (generate : handler.Model → Int → Option String) (store : Option handler.Model)
    (minWordsCount : Int) (dryRun : Bool) : Option Error × List String :=
  match store with
  | none => (some (Error.sentinel handler.ErrGenerationFailed), [])
  | some model =>
    if handler.hasTransitions model then
      match generate model minWordsCount with
      | none => (some (Error.sentinel handler.ErrGenerationFailed), [])
      | some text => if dryRun then (none, []) else (publish text, [text])
    else (some (Error.sentinel handler.ErrGenerationFailed), [])

/-- The services around the two handler steps above: the configuration loads
as `conf`, the model store starts as `initial` and reports a model as existing
when one is persisted, read `age` seconds after its last write. -/
def handlerServices (conf : BotConfig) (source : List PullResult)
    (tokenizer : String → List String) (generate : handler.Model → Int → Option String)
    (publish : String → Option Error) (age : ℚ) (initial : Option handler.Model) :
    Services (Option handler.Model) Unit :=
  Services.mk (fun _ _ _ => .ok initial) (fun _ => .ok "") (fun _ => .ok conf)
    (fun store => .ok ((), store.isSome)) (fun _ => age)
    (fun conf store =>
      handler.BuildChain source tokenizer conf.FetchStatusCount conf.StateSize store)
    (fun conf store => handler.GenerateAndPost publish generate store conf.MinWordsCount false)

/-! ### The collaborators of `main_test.go`

The store is the test's `memoryStore` (a model exists when its content is not
empty); the clock and the two handler steps are given by the scenario. -/

/-- Services over a `memoryStore` holding `model`, read `age` seconds after its
last write, with configuration `conf`. -/
def memoryServices (conf : BotConfig) (model : String) (age : ℚ)
    (build : String → String × Option Error)
    (generate : String → Option Error × List String) : Services String Unit :=
  Services.mk (fun _ _ _ => .ok model) (fun _ => .ok "") (fun _ => .ok conf)
    (fun content => .ok ((), decide (content.length > 0))) (fun _ => age)
    (fun _ content => build content) (fun _ content => generate content)

/-- The event of the tests. -/
def testEvent : PostEvent := PostEvent.mk "region" "bucket" "bot"

/-- `config.ChainConfig` of the third test: `ExpiresIn: 0` forces a rebuild. -/
def expiredConfig : BotConfig := BotConfig.mk 0 1 0 0

/-- The build step over the test's `errorBlogClient`: the fetch fails, the
store is left as it is. -/
def failingBuild (content : String) : String × Option Error :=
  (content, some (Error.new "failed to fetch posts"))

/-- The generate+publish step on a model built from one text: it publishes
that text; on an empty model it fails with `target`. -/
def generateFrom (target : Error) (content : String) : Option Error × List String :=
  if content = "" then (some target, []) else (none, [content])

/-- The build step over a `recordableBlogClient` with the given contents. -/
def buildFrom (contents : List String) (content : String) : String × Option Error :=
  (String.join contents, none)

/-! ## Markup in a text item -/

/-- The text has an HTML-like tag: a substring that begins with `<`, ends with
`>` and has no `>` in between. -/
def ContainsTag (l : List Char) : Prop :=
  ∃ before inner after, l = before ++ '<' :: (inner ++ '>' :: after) ∧ '>' ∉ inner

/-! ## Scenarios used by the concrete checks -/

/-- A Mastodon client as `NewMastodonClient` builds it. -/
def sampleMastodon : MastodonClient := NewMastodonClient "example.com" "token" "public"

/-- An Ohagi client as `NewOhagiClient` builds it. -/
def sampleOhagi : OhagiClient := NewOhagiClient "https://ohagi.example" "token" "public"

/-- The platform answers 200 with a body that decodes to `a`. -/
def okResponse {α : Type} (a : α) : Exchange α :=
  Exchange.response (Response.mk 200 "200 OK" (Body.decoded a))

/-- Mastodon: the account is "42" and the account has no post (left). -/
def mastodonEmptyPage : MastodonWorld :=
  MastodonWorld.mk (okResponse (MastodonAccount.mk "42" "bot")) (okResponse [])

/-- Mastodon: the account is "42" and the page holds one public post. -/
def mastodonOnePost : MastodonWorld :=
  MastodonWorld.mk (okResponse (MastodonAccount.mk "42" "bot"))
    (okResponse [MastodonStatus.mk "7" "<p>hi</p>" "public"])

/-- Ohagi: the account is "42" and the account has no post (left). -/
def ohagiEmptyPage : OhagiWorld :=
  OhagiWorld.mk (OhagiExchange.sent (okResponse (OhagiAccount.mk "42")))
    (OhagiExchange.sent (okResponse []))

/-- Ohagi: the account is "42" and the page holds one public post. -/
def ohagiOnePost : OhagiWorld :=
  OhagiWorld.mk (OhagiExchange.sent (okResponse (OhagiAccount.mk "42")))
    (OhagiExchange.sent (okResponse [OhagiPost.mk "7" "p7" "<p>hi</p>" "public"]))

/-- Mastodon: reading the body of the credentials response fails; the page
holds one public post. -/
def mastodonUnreadableIdentity : MastodonWorld :=
  MastodonWorld.mk
    (Exchange.response (Response.mk 200 "200 OK" (Body.readError (Error.new "unexpected EOF"))))
    (okResponse [MastodonStatus.mk "7" "<p>hi</p>" "public"])

/-- Ohagi: reading the body of the credentials response fails; the page holds
one public post. -/
def ohagiUnreadableIdentity : OhagiWorld :=
  OhagiWorld.mk
    (OhagiExchange.sent
      (Exchange.response (Response.mk 200 "200 OK" (Body.readError (Error.new "unexpected EOF")))))
    (OhagiExchange.sent (okResponse [OhagiPost.mk "7" "p7" "<p>hi</p>" "public"]))

/-- The platform refuses a publish request: status 401 with a JSON object that
has an `error` member and no `id`, which decodes into the struct of
`CreatePost` with an empty `Id`. -/
def unauthorized : Exchange MastodonCreated :=
  Exchange.response (Response.mk 401 "401 Unauthorized" (Body.decoded (MastodonCreated.mk "")))

/-- The generation-failed error, as the generate+publish step returns it. -/
def generationFailed : Error := Error.sentinel handler.ErrGenerationFailed

/-- Third test of `main_test.go`: a model built from "X" exists, `ExpiresIn` is
0 and the model is one second old, the fetch of the build step fails. -/
def staleModelFailingBuild : Services String Unit :=
  memoryServices expiredConfig "X" 1 failingBuild (generateFrom generationFailed)

/-- A model built from "X" exists and is exactly as old as the expiry window
of 60 seconds. -/
def modelAtExpiry : Services String Unit :=
  memoryServices (BotConfig.mk 60 1 0 0) "X" 60 (buildFrom ["Y"]) (generateFrom generationFailed)

/-- A model built from "X" exists and was written 10 seconds ago, the expiry
window being 60 seconds. -/
def freshModel : Services String Unit :=
  memoryServices (BotConfig.mk 60 1 0 0) "X" 10 (buildFrom ["Y"]) (generateFrom generationFailed)

/-- The fetch source of the second test of `main_test.go`, a
`recordableBlogClient` without contents: its first call returns no item and
hasMore=false. -/
def emptySource : List PullResult := [PullResult.mk [] false none]

/-- A tokenizer for the scenarios: the words between blanks. -/
def wordTokenizer (text : String) : List String := text.splitOn " "

/-- A generator for the scenarios: the first token sequence of the model. -/
def firstSequence (model : handler.Model) (minWordsCount : Int) : Option String :=
  model.head?.map (fun tokens => " ".intercalate tokens)

/-- A sink for the scenarios: publishing succeeds. -/
def acceptingSink (text : String) : Option Error := none

/-- Second test of `main_test.go`: no model is persisted and the source has
nothing to fetch. -/
def noModelNoItems : Services (Option handler.Model) Unit :=
  handlerServices (BotConfig.mk 60 1 0 0) emptySource wordTokenizer firstSequence acceptingSink
    0 none

/-- An Ohagi page with one public post whose content has a tag and escaped
text. -/
def ohagiEscapedPost : OhagiExchange (List OhagiPost) :=
  OhagiExchange.sent (okResponse [OhagiPost.mk "7" "p7" "<p>&lt;b&gt;</p>" "public"])

/-! ## Lemmas -/

theorem mem_of_mem_stripTags (x : Char) :
    ∀ (l : List Char) (b : Bool), x ∈ stripTags b l → x ∈ l := by
  intro l
  induction l with
  | nil => intro b h; cases b <;> simp [stripTags] at h
  | cons c rest ih =>
    intro b h
    cases b with
    | true =>
      simp only [stripTags] at h
      split at h
      · exact List.mem_cons_of_mem _ (ih _ h)
      · exact List.mem_cons_of_mem _ (ih _ h)
    | false =>
      simp only [stripTags] at h
      split at h
      · exact List.mem_cons_of_mem _ (ih _ h)
      · rcases List.mem_cons.mp h with h | h
        · exact h ▸ List.mem_cons_self _ _
        · exact List.mem_cons_of_mem _ (ih _ h)

theorem not_containsTag_nil : ¬ ContainsTag [] := by
  rintro ⟨before, inner, after, h, -⟩
  cases before <;> simp at h

theorem containsTag_cons {c : Char} {l : List Char} (h : ContainsTag (c :: l)) :
    (c = '<' ∧ '>' ∈ l) ∨ ContainsTag l := by
  obtain ⟨before, inner, after, heq, hin⟩ := h
  cases before with
  | nil =>
    left
    simp only [List.nil_append, List.cons.injEq] at heq
    refine ⟨heq.1, ?_⟩
    rw [heq.2]
    simp
  | cons d before =>
    right
    simp only [List.cons_append, List.cons.injEq] at heq
    exact ⟨before, inner, after, heq.2, hin⟩

theorem not_containsTag_stripTags :
    ∀ (l : List Char) (b : Bool), ¬ ContainsTag (stripTags b l) := by
  intro l
  induction l with
  | nil => intro b; cases b <;> simpa [stripTags] using not_containsTag_nil
  | cons c rest ih =>
    intro b
    cases b with
    | true =>
      simp only [stripTags]
      split
      · exact ih _
      · exact ih _
    | false =>
      simp only [stripTags]
      split
      · exact ih _
      · rename_i hcond
        intro h
        rcases containsTag_cons h with ⟨hc, hmem⟩ | h
        · exact hcond ⟨hc, mem_of_mem_stripTags _ _ _ hmem⟩
        · exact ih _ h

theorem not_containsTag_removeTags (s : String) : ¬ ContainsTag (removeTags s).data :=
  not_containsTag_stripTags _ _

theorem mastodonChunk_eq (page : List MastodonStatus) :
    mastodonChunk page =
      (page.filter (fun v => decide (¬ (v.Visibility = "private" ∨ v.Visibility = "direct")))).map
        (fun v => removeTags v.Content) := by
  induction page with
  | nil => rfl
  | cons v rest ih =>
    by_cases h : v.Visibility = "private" ∨ v.Visibility = "direct"
    · rcases h with h | h <;>
        simp [mastodonChunk, List.filter_cons, MastodonStatusPrivate, MastodonStatusDirect, h, ih]
    · obtain ⟨h1, h2⟩ := not_or.mp h
      simp [mastodonChunk, List.filter_cons, MastodonStatusPrivate, MastodonStatusDirect, h1, h2,
        ih]

theorem ohagiChunk_eq (t : EntityTable) (page : List OhagiPost) :
    ohagiChunk t page =
      (page.filter (fun v =>
        decide (¬ (v.Visibility = "followers-only" ∨ v.Visibility = "direct")))).map
        (fun v => UnescapeString t (removeTags v.Content)) := by
  induction page with
  | nil => rfl
  | cons v rest ih =>
    by_cases h : v.Visibility = "followers-only" ∨ v.Visibility = "direct"
    · rcases h with h | h <;>
        simp [ohagiChunk, List.filter_cons, OhagiPostVisibilityFollowersOnly,
          OhagiPostVisibilityDirect, h, ih]
    · obtain ⟨h1, h2⟩ := not_or.mp h
      simp [ohagiChunk, List.filter_cons, OhagiPostVisibilityFollowersOnly,
        OhagiPostVisibilityDirect, h1, h2, ih]

theorem mem_mastodonChunk {page : List MastodonStatus} {item : String}
    (h : item ∈ mastodonChunk page) : ∃ v ∈ page, item = removeTags v.Content := by
  rw [mastodonChunk_eq] at h
  obtain ⟨v, hv, rfl⟩ := List.mem_map.mp h
  exact ⟨v, (List.mem_filter.mp hv).1, rfl⟩

theorem mem_ohagiChunk {t : EntityTable} {page : List OhagiPost} {item : String}
    (h : item ∈ ohagiChunk t page) :
    ∃ v ∈ page, ¬ (v.Visibility = "followers-only" ∨ v.Visibility = "direct") ∧
      item = UnescapeString t (removeTags v.Content) := by
  rw [ohagiChunk_eq] at h
  obtain ⟨v, hv, rfl⟩ := List.mem_map.mp h
  obtain ⟨hmem, hvis⟩ := List.mem_filter.mp hv
  exact ⟨v, hmem, by simpa using hvis, rfl⟩

theorem lastStatusId_eq (page : List MastodonStatus) (hne : page ≠ []) :
    lastStatusId page = (page.getLast hne).Id := by
  simp [lastStatusId, List.getLast?_eq_getLast _ hne]

theorem lastPaginationID_eq (page : List OhagiPost) (hne : page ≠ []) :
    lastPaginationID page = (page.getLast hne).PaginationID := by
  simp [lastPaginationID, List.getLast?_eq_getLast _ hne]

/-- A Mastodon pull call whose identity step gives `userId` without error and
whose page decodes: state, results and requests of the page fetch. -/
theorem mastodon_pull_decoded (c : MastodonClient) (st : MastodonFetcher)
    (identity : Exchange MastodonAccount) (code : Nat) (status : String)
    (page : List MastodonStatus) (userId : String) (sent : List Request)
    (hid : (if st.userId = "" then c.FetchUserId identity else ((st.userId, none), []))
      = ((userId, none), sent)) :
    c.pull st (MastodonWorld.mk identity
        (Exchange.response (Response.mk code status (Body.decoded page)))) =
      (if page = [] then
        (MastodonFetcher.mk userId "", PullResult.mk [] false none,
          sent ++ [c.statusesRequest userId 100 st.maxId])
      else
        (MastodonFetcher.mk userId (lastStatusId page), PullResult.mk (mastodonChunk page) true none,
          sent ++ [c.statusesRequest userId 100 st.maxId])) := by
  cases page with
  | nil => simp [MastodonClient.pull, hid, MastodonClient.fetchPublicStatusesChunk]
  | cons v rest => simp [MastodonClient.pull, hid, MastodonClient.fetchPublicStatusesChunk]

/-- The same for an Ohagi pull call. -/
theorem ohagi_pull_decoded (c : OhagiClient) (t : EntityTable) (st : OhagiFetcher)
    (identity : OhagiExchange OhagiAccount) (code : Nat) (status : String)
    (page : List OhagiPost) (accountID : String) (sent : List Request)
    (hid : (if st.accountID = "" then c.fetchCredentialAccountID identity
      else ((st.accountID, none), [])) = ((accountID, none), sent)) :
    c.pull t st (OhagiWorld.mk identity
        (OhagiExchange.sent (Exchange.response (Response.mk code status (Body.decoded page))))) =
      (if page = [] then
        (OhagiFetcher.mk accountID "", PullResult.mk [] false none,
          sent ++ [c.postsRequest accountID st.paginationID])
      else
        (OhagiFetcher.mk accountID (lastPaginationID page),
          PullResult.mk (ohagiChunk t page) true none,
          sent ++ [c.postsRequest accountID st.paginationID])) := by
  cases page with
  | nil => simp [OhagiClient.pull, hid, OhagiClient.fetchPosts]
  | cons v rest => simp [OhagiClient.pull, hid, OhagiClient.fetchPosts]

/-- A page fetch that returns no error and hasNext=false saw an empty page. -/
theorem mastodon_fetch_terminal (c : MastodonClient) (userId : String) (count : Nat)
    (maxId : String) (x : Exchange (List MastodonStatus))
    (herr : (c.fetchPublicStatusesChunk userId count maxId x).1.err = none)
    (hmore : (c.fetchPublicStatusesChunk userId count maxId x).1.hasNext = false) :
    (c.fetchPublicStatusesChunk userId count maxId x).1.chunk = [] ∧
    (c.fetchPublicStatusesChunk userId count maxId x).1.next = "" := by
  rcases x with e | e | ⟨code, status, e | ⟨e, raw⟩ | page⟩ <;>
    simp [MastodonClient.fetchPublicStatusesChunk] at herr hmore ⊢
  cases page with
  | nil => simp
  | cons v rest => simp at hmore

theorem mastodon_pull_terminal (c : MastodonClient) (st : MastodonFetcher)
    (w : MastodonWorld) (chunk : List String)
    (h : (c.pull st w).2.1 = PullResult.mk chunk false none) :
    chunk = [] ∧ (c.pull st w).1.maxId = "" := by
  unfold MastodonClient.pull at h ⊢
  simp only at h ⊢
  split
  · rename_i e heq
    simp [heq] at h
  · rename_i heq
    simp only [heq] at h
    split
    · rename_i e herr
      simp [herr] at h
    · rename_i herr
      simp only [herr, PullResult.mk.injEq, and_true] at h
      have := mastodon_fetch_terminal c _ _ _ _ herr h.2
      exact ⟨by rw [← h.1]; exact this.1, this.2⟩

theorem ohagi_fetch_terminal (c : OhagiClient) (t : EntityTable)
    (accountID paginationID : String) (x : OhagiExchange (List OhagiPost))
    (herr : (c.fetchPosts t accountID paginationID x).1.err = none)
    (hmore : (c.fetchPosts t accountID paginationID x).1.hasNext = false) :
    (c.fetchPosts t accountID paginationID x).1.chunk = [] ∧
    (c.fetchPosts t accountID paginationID x).1.next = "" := by
  rcases x with e | e | e | ⟨code, status, e | ⟨e, raw⟩ | page⟩ <;>
    simp [OhagiClient.fetchPosts] at herr hmore ⊢
  cases page with
  | nil => simp
  | cons v rest => simp at hmore

theorem ohagi_pull_terminal (c : OhagiClient) (t : EntityTable) (st : OhagiFetcher)
    (w : OhagiWorld) (chunk : List String)
    (h : (c.pull t st w).2.1 = PullResult.mk chunk false none) :
    chunk = [] ∧ (c.pull t st w).1.paginationID = "" := by
  unfold OhagiClient.pull at h ⊢
  simp only at h ⊢
  split
  · rename_i e heq
    simp [heq] at h
  · rename_i heq
    simp only [heq] at h
    split
    · rename_i e herr
      simp [herr] at h
    · rename_i herr
      simp only [herr, PullResult.mk.injEq, and_true] at h
      have := ohagi_fetch_terminal c _ _ _ _ herr h.2
      exact ⟨by rw [← h.1]; exact this.1, this.2⟩

theorem mastodon_fetch_chunk_cases (c : MastodonClient) (userId : String) (count : Nat)
    (maxId : String) (x : Exchange (List MastodonStatus)) :
    (c.fetchPublicStatusesChunk userId count maxId x).1.chunk = [] ∨
    ∃ page, (c.fetchPublicStatusesChunk userId count maxId x).1.chunk = mastodonChunk page := by
  rcases x with e | e | ⟨code, status, e | ⟨e, raw⟩ | page⟩ <;>
    simp [MastodonClient.fetchPublicStatusesChunk]
  by_cases h : page = []
  · simp [h]
  · right
    exact ⟨page, by simp [h]⟩

/-- A non-empty Ohagi chunk comes from a decoded page. -/
theorem ohagi_mem_chunk (c : OhagiClient) (t : EntityTable)
    (accountID paginationID : String) (x : OhagiExchange (List OhagiPost)) (item : String)
    (h : item ∈ (c.fetchPosts t accountID paginationID x).1.chunk) :
    ∃ code status page,
      x = OhagiExchange.sent (Exchange.response (Response.mk code status (Body.decoded page))) ∧
      item ∈ ohagiChunk t page := by
  rcases x with e | e | e | ⟨code, status, e | ⟨e, raw⟩ | page⟩ <;>
    simp [OhagiClient.fetchPosts] at h
  refine ⟨code, status, page, rfl, ?_⟩
  by_cases hp : page = []
  · simp [hp] at h
  · simpa [hp] using h

theorem Error.Is_wrap (before after : String) (inner : Error) (target : Sentinel)
    (h : inner.Is target = true) : (Error.wrap before inner after).Is target = true := by
  simpa [Error.Is] using h

/-- The handler once the configuration, the model store and its freshness
record are there. -/
theorem requestHandler_eq {σ τ : Type} (s : Services σ τ) (ev : PostEvent) (confStore : σ)
    (conf : BotConfig) (modelStore : σ) (mod : τ) (ok : Bool)
    (h1 : s.NewS3Store ev.S3Region ev.S3BucketName (ev.S3KeyPrefix ++ "/config.yml")
      = .ok confStore)
    (h2 : loadConfig s confStore = .ok conf)
    (h3 : s.NewS3Store ev.S3Region ev.S3BucketName (ev.S3KeyPrefix ++ "/model") = .ok modelStore)
    (h4 : s.ModTime modelStore = .ok (mod, ok)) :
    requestHandler s ev =
      if !ok || decide ((conf.ExpiresIn : ℚ) < s.Since mod) then
        match (s.BuildChain conf modelStore).2 with
        | some err => Run.mk (some (Error.wrap "build chain: " err "")) [Event.build (some err)]
        | none =>
          match (s.GenerateAndPost conf (s.BuildChain conf modelStore).1).1 with
          | some err => Run.mk (some (Error.wrap "generate and post: " err ""))
              [Event.build none,
                Event.generate (some err) (s.GenerateAndPost conf (s.BuildChain conf modelStore).1).2]
          | none => Run.mk none [Event.build none,
              Event.generate none (s.GenerateAndPost conf (s.BuildChain conf modelStore).1).2]
      else
        match (s.GenerateAndPost conf modelStore).1 with
        | some err => Run.mk (some (Error.wrap "generate and post: " err ""))
            [Event.generate (some err) (s.GenerateAndPost conf modelStore).2]
        | none => Run.mk none [Event.generate none (s.GenerateAndPost conf modelStore).2] := by
  simp only [requestHandler, h1, h2, h3, h4]

/-- Either the handler stops before any step, or the configuration, the model
store and its freshness record are there. -/
theorem requestHandler_reaches {σ τ : Type} (s : Services σ τ) (ev : PostEvent) :
    (requestHandler s ev).trace = [] ∨
    ∃ (confStore : σ) (conf : BotConfig) (modelStore : σ) (mod : τ) (ok : Bool),
      s.NewS3Store ev.S3Region ev.S3BucketName (ev.S3KeyPrefix ++ "/config.yml")
        = .ok confStore ∧
      loadConfig s confStore = .ok conf ∧
      s.NewS3Store ev.S3Region ev.S3BucketName (ev.S3KeyPrefix ++ "/model") = .ok modelStore ∧
      s.ModTime modelStore = .ok (mod, ok) := by
  cases h1 : s.NewS3Store ev.S3Region ev.S3BucketName (ev.S3KeyPrefix ++ "/config.yml") with
  | error e => left; simp [requestHandler, h1]
  | ok confStore =>
    cases h2 : loadConfig s confStore with
    | error e => left; simp [requestHandler, h1, h2]
    | ok conf =>
      cases h3 : s.NewS3Store ev.S3Region ev.S3BucketName (ev.S3KeyPrefix ++ "/model") with
      | error e => left; simp [requestHandler, h1, h2, h3]
      | ok modelStore =>
        cases h4 : s.ModTime modelStore with
        | error e => left; simp [requestHandler, h1, h2, h3, h4]
        | ok r =>
          right
          exact ⟨confStore, conf, modelStore, r.1, r.2, rfl, h2, rfl, h4⟩

/-- The shapes of a run in which a handler step was invoked. -/
theorem requestHandler_forms {σ τ : Type} (s : Services σ τ) (ev : PostEvent) :
    (requestHandler s ev).trace = [] ∨
    (∃ e, requestHandler s ev
      = Run.mk (some (Error.wrap "build chain: " e "")) [Event.build (some e)]) ∨
    (∃ before e posted, requestHandler s ev
      = Run.mk (some (Error.wrap "generate and post: " e ""))
          (before ++ [Event.generate (some e) posted]) ∧
        (before = [] ∨ before = [Event.build none])) ∨
    (∃ before posted, requestHandler s ev
      = Run.mk none (before ++ [Event.generate none posted]) ∧
        (before = [] ∨ before = [Event.build none])) := by
  rcases requestHandler_reaches s ev with h | ⟨confStore, conf, modelStore, mod, ok, h1, h2, h3, h4⟩
  · exact Or.inl h
  · right
    rw [requestHandler_eq s ev confStore conf modelStore mod ok h1 h2 h3 h4]
    by_cases hc : (!ok || decide ((conf.ExpiresIn : ℚ) < s.Since mod)) = true
    · rw [if_pos hc]
      cases hb : (s.BuildChain conf modelStore).2 with
      | some e => exact Or.inl ⟨e, rfl⟩
      | none =>
        cases hg : (s.GenerateAndPost conf (s.BuildChain conf modelStore).1).1 with
        | some e => exact Or.inr (Or.inl ⟨[Event.build none], e, _, rfl, Or.inr rfl⟩)
        | none => exact Or.inr (Or.inr ⟨[Event.build none], _, rfl, Or.inr rfl⟩)
    · rw [if_neg hc]
      cases hg : (s.GenerateAndPost conf modelStore).1 with
      | some e => exact Or.inr (Or.inl ⟨[], e, _, rfl, Or.inl rfl⟩)
      | none => exact Or.inr (Or.inr ⟨[], _, rfl, Or.inl rfl⟩)

/-! ## C2: the chunk is the cleaned content of the unrestricted posts -/

/-- C2. For every decoded raw page, the chunk returned by
`fetchPublicStatusesChunk` (Mastodon) and by `fetchPosts` (Ohagi) is, in page
order, the cleaned content of exactly the posts whose visibility is not
restricted (Mastodon: neither "private" nor "direct", cleaned by tag removal;
Ohagi: neither "followers-only" nor "direct", cleaned by tag removal followed
by entity decoding), and no error is returned. -/
theorem chunk_is_cleaned_unrestricted_posts :
    (∀ (c : MastodonClient) (userId : String) (count : Nat) (maxId : String) (code : Nat)
        (status : String) (page : List MastodonStatus),
      (c.fetchPublicStatusesChunk userId count maxId
          (Exchange.response (Response.mk code status (Body.decoded page)))).1.chunk =
        (page.filter (fun v =>
          decide (¬ (v.Visibility = "private" ∨ v.Visibility = "direct")))).map
          (fun v => removeTags v.Content) ∧
      (c.fetchPublicStatusesChunk userId count maxId
          (Exchange.response (Response.mk code status (Body.decoded page)))).1.err = none) ∧
    (∀ (c : OhagiClient) (t : EntityTable) (accountID paginationID : String) (code : Nat)
        (status : String) (page : List OhagiPost),
      (c.fetchPosts t accountID paginationID
          (OhagiExchange.sent (Exchange.response
            (Response.mk code status (Body.decoded page))))).1.chunk =
        (page.filter (fun v =>
          decide (¬ (v.Visibility = "followers-only" ∨ v.Visibility = "direct")))).map
          (fun v => UnescapeString t (removeTags v.Content)) ∧
      (c.fetchPosts t accountID paginationID
          (OhagiExchange.sent (Exchange.response
            (Response.mk code status (Body.decoded page))))).1.err = none) := by
  constructor
  · intro c userId count maxId code status page
    cases page with
    | nil => simp [MastodonClient.fetchPublicStatusesChunk]
    | cons v rest =>
      simp only [MastodonClient.fetchPublicStatusesChunk, List.length_cons,
        Nat.succ_ne_zero, if_false, and_true]
      exact mastodonChunk_eq _
  · intro c t accountID paginationID code status page
    cases page with
    | nil => simp [OhagiClient.fetchPosts]
    | cons v rest =>
      simp only [OhagiClient.fetchPosts, List.length_cons,
        Nat.succ_ne_zero, if_false, and_true]
      exact ohagiChunk_eq _ _

/-! ## C3: the cursor follows the raw page -/

/-- C3. For each adapter and every non-empty decoded raw page, a pull call
whose identity step does not fail stores as its cursor the pagination
identifier of the last item of the raw page (Mastodon: its id; Ohagi: its
pagination_id) and reports hasMore=true with no error, whatever the visibility
filter removed: the chunk is the filtered page, which may be empty. -/
theorem cursor_is_last_item_of_raw_page :
    (∀ (c : MastodonClient) (st : MastodonFetcher) (identity : Exchange MastodonAccount)
        (code : Nat) (status : String) (page : List MastodonStatus) (hne : page ≠ []),
      (st.userId ≠ "" ∨ ∃ id, (c.FetchUserId identity).1 = (id, none)) →
      (c.pull st (MastodonWorld.mk identity
          (Exchange.response (Response.mk code status (Body.decoded page))))).1.maxId
        = (page.getLast hne).Id ∧
      (c.pull st (MastodonWorld.mk identity
          (Exchange.response (Response.mk code status (Body.decoded page))))).2.1
        = PullResult.mk (mastodonChunk page) true none) ∧
    (∀ (c : OhagiClient) (t : EntityTable) (st : OhagiFetcher)
        (identity : OhagiExchange OhagiAccount)
        (code : Nat) (status : String) (page : List OhagiPost) (hne : page ≠ []),
      (st.accountID ≠ "" ∨ ∃ id, (c.fetchCredentialAccountID identity).1 = (id, none)) →
      (c.pull t st (OhagiWorld.mk identity (OhagiExchange.sent
          (Exchange.response (Response.mk code status (Body.decoded page)))))).1.paginationID
        = (page.getLast hne).PaginationID ∧
      (c.pull t st (OhagiWorld.mk identity (OhagiExchange.sent
          (Exchange.response (Response.mk code status (Body.decoded page)))))).2.1
        = PullResult.mk (ohagiChunk t page) true none) := by
  constructor
  · intro c st identity code status page hne hid
    have key : ∃ userId sent,
        (if st.userId = "" then c.FetchUserId identity else ((st.userId, none), []))
          = ((userId, none), sent) := by
      by_cases hu : st.userId = ""
      · rcases hid with h | ⟨id, h⟩
        · exact absurd hu h
        · exact ⟨id, (c.FetchUserId identity).2, by rw [if_pos hu, ← h]⟩
      · exact ⟨st.userId, [], by rw [if_neg hu]⟩
    obtain ⟨userId, sent, hk⟩ := key
    rw [mastodon_pull_decoded c st identity code status page userId sent hk, if_neg hne]
    exact ⟨lastStatusId_eq page hne, rfl⟩
  · intro c t st identity code status page hne hid
    have key : ∃ accountID sent,
        (if st.accountID = "" then c.fetchCredentialAccountID identity
          else ((st.accountID, none), [])) = ((accountID, none), sent) := by
      by_cases hu : st.accountID = ""
      · rcases hid with h | ⟨id, h⟩
        · exact absurd hu h
        · exact ⟨id, (c.fetchCredentialAccountID identity).2, by rw [if_pos hu, ← h]⟩
      · exact ⟨st.accountID, [], by rw [if_neg hu]⟩
    obtain ⟨accountID, sent, hk⟩ := key
    rw [ohagi_pull_decoded c t st identity code status page accountID sent hk, if_neg hne]
    exact ⟨lastPaginationID_eq page hne, rfl⟩

/-- C3 at a page whose two posts are both removed by the filter: the chunk is
empty, hasMore is true and the cursor is the id of the last post. -/
theorem cursor_is_last_item_of_raw_page_witness :
    ((MastodonFetcher.mk "42" "").userId ≠ "" ∨
        ∃ id, ((MastodonClient.mk "example.com" "token" "unlisted").FetchUserId
          (Exchange.doError (Error.new "unused"))).1 = (id, none)) ∧
    ((MastodonClient.mk "example.com" "token" "unlisted").pull (MastodonFetcher.mk "42" "")
        (MastodonWorld.mk (Exchange.doError (Error.new "unused"))
          (Exchange.response (Response.mk 200 "200 OK" (Body.decoded
            [MastodonStatus.mk "9" "<p>a</p>" "private",
             MastodonStatus.mk "8" "<p>b</p>" "direct"]))))).1.maxId = "8" ∧
    ((MastodonClient.mk "example.com" "token" "unlisted").pull (MastodonFetcher.mk "42" "")
        (MastodonWorld.mk (Exchange.doError (Error.new "unused"))
          (Exchange.response (Response.mk 200 "200 OK" (Body.decoded
            [MastodonStatus.mk "9" "<p>a</p>" "private",
             MastodonStatus.mk "8" "<p>b</p>" "direct"]))))).2.1
      = PullResult.mk [] true none :=
  ⟨Or.inl (by decide),
    (cursor_is_last_item_of_raw_page.1 (MastodonClient.mk "example.com" "token" "unlisted")
      (MastodonFetcher.mk "42" "") (Exchange.doError (Error.new "unused")) 200 "200 OK"
      [MastodonStatus.mk "9" "<p>a</p>" "private", MastodonStatus.mk "8" "<p>b</p>" "direct"]
      (by simp) (Or.inl (by decide))).1,
    (cursor_is_last_item_of_raw_page.1 (MastodonClient.mk "example.com" "token" "unlisted")
      (MastodonFetcher.mk "42" "") (Exchange.doError (Error.new "unused")) 200 "200 OK"
      [MastodonStatus.mk "9" "<p>a</p>" "private", MastodonStatus.mk "8" "<p>b</p>" "direct"]
      (by simp) (Or.inl (by decide))).2⟩

/-! ## C1: calls after the end of the sequence -/

/-- C1, as stated, fails. From a fresh fetcher, a first call that sees an empty
page returns an empty chunk, hasMore=false and no error; the next call sends a
page request without cursor (the first page) and, when the platform then has a
post, returns that post with hasMore=true. So for both adapters. -/
theorem exhausted_fetcher_fetches_again :
    (sampleMastodon.pull sampleMastodon.GetPostsFetcher mastodonEmptyPage).2.1
        = PullResult.mk [] false none ∧
    sampleMastodon.pull
        (sampleMastodon.pull sampleMastodon.GetPostsFetcher mastodonEmptyPage).1 mastodonOnePost
      = (MastodonFetcher.mk "42" "7", PullResult.mk ["hi"] true none,
          [Request.mk "GET"
            "https://example.com/api/v1/accounts/42/statuses?limit=100&exclude_reblogs=1&exclude_replies=1"
            [] [("Authorization", "Bearer token")] Payload.empty]) ∧
    (sampleOhagi.pull xmlEntities sampleOhagi.GetPostsFetcher ohagiEmptyPage).2.1
        = PullResult.mk [] false none ∧
    sampleOhagi.pull xmlEntities
        (sampleOhagi.pull xmlEntities sampleOhagi.GetPostsFetcher ohagiEmptyPage).1 ohagiOnePost
      = (OhagiFetcher.mk "42" "p7", PullResult.mk ["hi"] true none,
          [Request.mk "GET" "https://ohagi.example/api/v1/accounts/42/posts"
            [("exclude_reblogs", "true"), ("exclude_replies", "true"), ("order", "desc")]
            [("Authorization", "Bearer token")] Payload.empty]) := by
  refine ⟨?_, ?_, ?_, ?_⟩ <;> decide

/-- C1, amended. For each adapter, a pull call returns hasMore=false with no
error only with an empty chunk, and it leaves the stored cursor empty. A later
call (the identity being cached) whose page decodes sends exactly one page
request, without cursor, and returns what that page gives: an empty chunk,
hasMore=false and no error, with the state unchanged, when the page is empty
again; the filtered page with hasMore=true, the cursor moving to its last
item, when it is not. -/
theorem exhausted_fetcher_requests_first_page :
    (∀ (c : MastodonClient) (st : MastodonFetcher) (w : MastodonWorld) (chunk : List String),
      (c.pull st w).2.1 = PullResult.mk chunk false none →
      chunk = [] ∧ (c.pull st w).1.maxId = "" ∧
      ∀ (identity : Exchange MastodonAccount) (code : Nat) (status : String)
          (page : List MastodonStatus),
        (c.pull st w).1.userId ≠ "" →
        c.pull (c.pull st w).1 (MastodonWorld.mk identity
            (Exchange.response (Response.mk code status (Body.decoded page)))) =
          (if page = [] then
            ((c.pull st w).1, PullResult.mk [] false none,
              [c.statusesRequest (c.pull st w).1.userId 100 ""])
          else
            (MastodonFetcher.mk (c.pull st w).1.userId (lastStatusId page),
              PullResult.mk (mastodonChunk page) true none,
              [c.statusesRequest (c.pull st w).1.userId 100 ""]))) ∧
    (∀ (c : OhagiClient) (t : EntityTable) (st : OhagiFetcher) (w : OhagiWorld)
        (chunk : List String),
      (c.pull t st w).2.1 = PullResult.mk chunk false none →
      chunk = [] ∧ (c.pull t st w).1.paginationID = "" ∧
      ∀ (identity : OhagiExchange OhagiAccount) (code : Nat) (status : String)
          (page : List OhagiPost),
        (c.pull t st w).1.accountID ≠ "" →
        c.pull t (c.pull t st w).1 (OhagiWorld.mk identity (OhagiExchange.sent
            (Exchange.response (Response.mk code status (Body.decoded page))))) =
          (if page = [] then
            ((c.pull t st w).1, PullResult.mk [] false none,
              [c.postsRequest (c.pull t st w).1.accountID ""])
          else
            (OhagiFetcher.mk (c.pull t st w).1.accountID (lastPaginationID page),
              PullResult.mk (ohagiChunk t page) true none,
              [c.postsRequest (c.pull t st w).1.accountID ""]))) := by
  constructor
  · intro c st w chunk h
    obtain ⟨hchunk, hcursor⟩ := mastodon_pull_terminal c st w chunk h
    refine ⟨hchunk, hcursor, ?_⟩
    intro identity code status page hu
    generalize c.pull st w = next at hcursor hu
    obtain ⟨⟨userId, maxId⟩, res, sent⟩ := next
    simp only at hcursor hu
    subst hcursor
    rw [mastodon_pull_decoded c _ identity code status page userId [] (by simp [hu])]
    simp
  · intro c t st w chunk h
    obtain ⟨hchunk, hcursor⟩ := ohagi_pull_terminal c t st w chunk h
    refine ⟨hchunk, hcursor, ?_⟩
    intro identity code status page hu
    generalize c.pull t st w = next at hcursor hu
    obtain ⟨⟨accountID, paginationID⟩, res, sent⟩ := next
    simp only at hcursor hu
    subst hcursor
    rw [ohagi_pull_decoded c t _ identity code status page accountID [] (by simp [hu])]
    simp

/-- C1 amended, on the Mastodon scenario: after the terminal call on an empty
page the cursor is empty, and the next call, on a page with one post, sends the
request for the first page and returns the post. -/
theorem exhausted_fetcher_requests_first_page_witness :
    (sampleMastodon.pull sampleMastodon.GetPostsFetcher mastodonEmptyPage).2.1
        = PullResult.mk [] false none ∧
    (sampleMastodon.pull sampleMastodon.GetPostsFetcher mastodonEmptyPage).1.userId ≠ "" ∧
    (sampleMastodon.pull sampleMastodon.GetPostsFetcher mastodonEmptyPage).1.maxId = "" ∧
    sampleMastodon.pull
        (sampleMastodon.pull sampleMastodon.GetPostsFetcher mastodonEmptyPage).1
        (MastodonWorld.mk (Exchange.doError (Error.new "unused"))
          (Exchange.response (Response.mk 200 "200 OK"
            (Body.decoded [MastodonStatus.mk "7" "<p>hi</p>" "public"])))) =
      (MastodonFetcher.mk "42" "7", PullResult.mk ["hi"] true none,
        [sampleMastodon.statusesRequest "42" 100 ""]) :=
  ⟨by decide, by decide,
    (exhausted_fetcher_requests_first_page.1 sampleMastodon sampleMastodon.GetPostsFetcher
      mastodonEmptyPage [] (by decide)).2.1,
    (exhausted_fetcher_requests_first_page.1 sampleMastodon sampleMastodon.GetPostsFetcher
      mastodonEmptyPage [] (by decide)).2.2 (Exchange.doError (Error.new "unused")) 200 "200 OK"
      [MastodonStatus.mk "7" "<p>hi</p>" "public"] (by decide)⟩

/-! ## C10: markup in the items of a chunk -/

/-- C10, as stated, fails for Ohagi. A public post whose content is the
escaped text `&lt;b&gt;` has no tag to strip, and entity decoding then turns it
into the item `<b>`, which is an HTML-like tag. -/
theorem entity_decoding_restores_tag :
    (sampleOhagi.fetchPosts xmlEntities "42" ""
        (OhagiExchange.sent (okResponse [OhagiPost.mk "7" "p7" "&lt;b&gt;" "public"]))).1.chunk
      = ["<b>"] ∧
    ContainsTag "<b>".data :=
  ⟨by decide, [], ['b'], [], by decide, by decide⟩

/-- C10, amended. Every item of a Mastodon chunk has no HTML-like tag. Every
item of an Ohagi chunk comes from a decoded page and is, for an unrestricted
post of that page, the entity decoding of the post's content with its tags
removed; that text, before the decoding, has no HTML-like tag. (The decoding
is not followed by another removal: the item itself may have one.) -/
theorem chunk_items_are_stripped :
    (∀ (c : MastodonClient) (userId : String) (count : Nat) (maxId : String)
        (x : Exchange (List MastodonStatus)) (item : String),
      item ∈ (c.fetchPublicStatusesChunk userId count maxId x).1.chunk →
      ¬ ContainsTag item.data) ∧
    (∀ (c : OhagiClient) (t : EntityTable) (accountID paginationID : String)
        (x : OhagiExchange (List OhagiPost)) (item : String),
      item ∈ (c.fetchPosts t accountID paginationID x).1.chunk →
      ∃ (code : Nat) (status : String) (page : List OhagiPost) (v : OhagiPost),
        x = OhagiExchange.sent
          (Exchange.response (Response.mk code status (Body.decoded page))) ∧
        v ∈ page ∧
        ¬ (v.Visibility = "followers-only" ∨ v.Visibility = "direct") ∧
        item = UnescapeString t (removeTags v.Content) ∧
        ¬ ContainsTag (removeTags v.Content).data) := by
  constructor
  · intro c userId count maxId x item h
    rcases mastodon_fetch_chunk_cases c userId count maxId x with h0 | ⟨page, hp⟩
    · simp [h0] at h
    · rw [hp] at h
      obtain ⟨v, -, rfl⟩ := mem_mastodonChunk h
      exact not_containsTag_removeTags _
  · intro c t accountID paginationID x item h
    obtain ⟨code, status, page, hx, hmem⟩ := ohagi_mem_chunk c t accountID paginationID x item h
    obtain ⟨v, hv, hvis, hitem⟩ := mem_ohagiChunk hmem
    exact ⟨code, status, page, v, hx, hv, hvis, hitem, not_containsTag_removeTags _⟩

/-- C10 amended, on an Ohagi page with one public post `<p>&lt;b&gt;</p>`:
the item `<b>` is the decoding of the stripped content of a post of the page. -/
theorem chunk_items_are_stripped_witness :
    "<b>" ∈ (sampleOhagi.fetchPosts xmlEntities "42" "" ohagiEscapedPost).1.chunk ∧
    ∃ (code : Nat) (status : String) (page : List OhagiPost) (v : OhagiPost),
      ohagiEscapedPost = OhagiExchange.sent
        (Exchange.response (Response.mk code status (Body.decoded page))) ∧
      v ∈ page ∧
      ¬ (v.Visibility = "followers-only" ∨ v.Visibility = "direct") ∧
      "<b>" = UnescapeString xmlEntities (removeTags v.Content) ∧
      ¬ ContainsTag (removeTags v.Content).data :=
  ⟨by decide,
    chunk_items_are_stripped.2 sampleOhagi xmlEntities "42" "" ohagiEscapedPost "<b>"
      (by decide)⟩

/-! ## C7: visibility of a Mastodon post -/

/-- C7 fails on the code. `NewMastodonClient` drops its `postVisibility`
argument: a client built for visibility "public" sends visibility=unlisted,
and so does a client built for any other level. -/
theorem mastodon_post_visibility_is_unlisted :
    (NewMastodonClient "example.com" "token" "public").CreatePost "hello"
        (okResponse (MastodonCreated.mk "1"))
      = (none, [Request.mk "POST" "https://example.com/api/v1/statuses" []
          [("Content-Type", "application/x-www-form-urlencoded"),
            ("Authorization", "Bearer token")]
          (Payload.form [("status", "hello"), ("visibility", "unlisted")])]) ∧
    ∀ (domain token v p : String),
      ((NewMastodonClient domain token v).postRequest p).body
        = Payload.form [("status", p), ("visibility", "unlisted")] :=
  ⟨by decide, fun _ _ _ _ => rfl⟩

/-! ## C8: publish requests answered with a failure status -/

/-- C8 fails on the code for Mastodon. `CreatePost` never looks at the status
code: a 401 response with a JSON object as body gives no error, and so does any
status with a body that decodes. Ohagi `CreatePost` does check: it returns no
error exactly for status 200. -/
theorem mastodon_CreatePost_ignores_status :
    (sampleMastodon.CreatePost "hello" unauthorized).1 = none ∧
    (∀ (c : MastodonClient) (payload : String) (code : Nat) (status : String)
        (created : MastodonCreated),
      (c.CreatePost payload
        (Exchange.response (Response.mk code status (Body.decoded created)))).1 = none) ∧
    (∀ (c : OhagiClient) (payload : String) (code : Nat) (status : String),
      (c.CreatePost payload
        (OhagiExchange.sent (Exchange.response (Response.mk code status (Body.decoded ()))))).1
          = none ↔ code = 200) := by
  refine ⟨by decide, fun _ _ _ _ _ => rfl, ?_⟩
  intro c payload code status
  by_cases h : code = 200 <;> simp [OhagiClient.CreatePost, h]

/-! ## C9: identity resolution when the body cannot be read -/

/-- C9 fails on the code. When `io.ReadAll` fails, `FetchUserId` and
`fetchCredentialAccountID` return the empty identifier with a nil error, and
the pull call goes on: it requests the page of the account with the empty
identifier and returns its posts without error. -/
theorem identity_read_failure_is_swallowed :
    (∀ (c : MastodonClient) (code : Nat) (status : String) (e : Error),
      c.FetchUserId (Exchange.response (Response.mk code status (Body.readError e)))
        = (("", none), [c.verifyRequest])) ∧
    (∀ (c : OhagiClient) (code : Nat) (status : String) (e : Error),
      c.fetchCredentialAccountID
          (OhagiExchange.sent (Exchange.response (Response.mk code status (Body.readError e))))
        = (("", none), [c.credentialRequest])) ∧
    sampleMastodon.pull sampleMastodon.GetPostsFetcher mastodonUnreadableIdentity
      = (MastodonFetcher.mk "" "7", PullResult.mk ["hi"] true none,
          [sampleMastodon.verifyRequest, sampleMastodon.statusesRequest "" 100 ""]) ∧
    sampleOhagi.pull xmlEntities sampleOhagi.GetPostsFetcher ohagiUnreadableIdentity
      = (OhagiFetcher.mk "" "p7", PullResult.mk ["hi"] true none,
          [sampleOhagi.credentialRequest, sampleOhagi.postsRequest "" ""]) :=
  ⟨fun _ _ _ _ => rfl, fun _ _ _ _ => rfl, by decide, by decide⟩

/-! ## C4: a failed rebuild of an existing model -/

/-- C4 fails on the code. In the situation of the third test of `main_test.go`
(a model exists, `ExpiresIn = 0` forces the rebuild, the build step fails)
`requestHandler` returns the build error, wrapped, and never invokes the
generate+publish step: nothing is published. -/
theorem build_failure_is_returned :
    requestHandler staleModelFailingBuild testEvent
      = Run.mk (some (Error.wrap "build chain: " (Error.new "failed to fetch posts") ""))
          [Event.build (some (Error.new "failed to fetch posts"))] ∧
    generateCount (requestHandler staleModelFailingBuild testEvent).trace = 0 ∧
    published (requestHandler staleModelFailingBuild testEvent).trace = [] := by
  have h : requestHandler staleModelFailingBuild testEvent
      = Run.mk (some (Error.wrap "build chain: " (Error.new "failed to fetch posts") ""))
          [Event.build (some (Error.new "failed to fetch posts"))] := by
    decide
  rw [h]
  exact ⟨rfl, rfl, rfl⟩

/-! ## C5: when the build step runs -/

/-- C5, as stated, fails. A model exists and its age, 60 seconds, equals
`ExpiresIn`: the age is greater than or equal to the window, yet the build step
is not invoked; the generate+publish step is. -/
theorem no_build_at_exact_expiry :
    modelAtExpiry.ModTime "X" = .ok ((), true) ∧
    ((BotConfig.mk 60 1 0 0).ExpiresIn : ℚ) ≤ modelAtExpiry.Since () ∧
    buildCount (requestHandler modelAtExpiry testEvent).trace = 0 ∧
    generateCount (requestHandler modelAtExpiry testEvent).trace = 1 := by
  have h : requestHandler modelAtExpiry testEvent = Run.mk none [Event.generate none ["X"]] := by
    decide
  rw [h]
  exact ⟨rfl, by decide, rfl, rfl⟩

/-- C5, amended. Once `requestHandler` has its configuration and the freshness
record of the model, it invokes the build step exactly when the model is
missing or its age in seconds is strictly greater than `ExpiresIn`, and then
once; when the model exists and its age is at most `ExpiresIn` it performs no
build invocation and invokes the generate+publish step once. -/
theorem build_iff_missing_or_older {σ τ : Type} (s : Services σ τ) (ev : PostEvent)
    (confStore : σ) (conf : BotConfig) (modelStore : σ) (mod : τ) (ok : Bool)
    (h1 : s.NewS3Store ev.S3Region ev.S3BucketName (ev.S3KeyPrefix ++ "/config.yml")
      = .ok confStore)
    (h2 : loadConfig s confStore = .ok conf)
    (h3 : s.NewS3Store ev.S3Region ev.S3BucketName (ev.S3KeyPrefix ++ "/model") = .ok modelStore)
    (h4 : s.ModTime modelStore = .ok (mod, ok)) :
    buildCount (requestHandler s ev).trace
      = (if ok = false ∨ (conf.ExpiresIn : ℚ) < s.Since mod then 1 else 0) ∧
    (ok = true → s.Since mod ≤ (conf.ExpiresIn : ℚ) →
      buildCount (requestHandler s ev).trace = 0 ∧
      generateCount (requestHandler s ev).trace = 1) := by
  rw [requestHandler_eq s ev confStore conf modelStore mod ok h1 h2 h3 h4]
  constructor
  · by_cases hb : ok = false ∨ (conf.ExpiresIn : ℚ) < s.Since mod
    · have hc : (!ok || decide ((conf.ExpiresIn : ℚ) < s.Since mod)) = true := by
        rcases hb with hb | hb <;> simp [hb]
      rw [if_pos hc, if_pos hb]
      split
      · rfl
      · split <;> rfl
    · have hc : ¬ (!ok || decide ((conf.ExpiresIn : ℚ) < s.Since mod)) = true := by
        obtain ⟨hb1, hb2⟩ := not_or.mp hb
        simp [hb1, hb2]
      rw [if_neg hc, if_neg hb]
      split <;> rfl
  · intro hok hage
    have hc : ¬ (!ok || decide ((conf.ExpiresIn : ℚ) < s.Since mod)) = true := by
      simp [hok, not_lt.mpr hage]
    rw [if_neg hc]
    split <;> exact ⟨rfl, rfl⟩

/-- C5 amended, on a model written 10 seconds ago with a window of 60 seconds:
no build, one generate+publish. -/
theorem build_iff_missing_or_older_witness :
    buildCount (requestHandler freshModel testEvent).trace = 0 ∧
    generateCount (requestHandler freshModel testEvent).trace = 1 :=
  (build_iff_missing_or_older freshModel testEvent "X" (BotConfig.mk 60 1 0 0) "X" () true
    rfl rfl rfl rfl).2 rfl (by decide)

/-! ## C6: the generation-failed error reaches the caller -/

/-- C6. Whenever the generate+publish step is invoked and returns an error that
matches a sentinel (`ErrGenerationFailed` among them) under `errors.Is`,
`requestHandler` returns that very error wrapped with `%w` under
"generate and post: ", which still matches the sentinel, and what was
published during the invocation is what that step published. With the handler
steps of the spec, no persisted model and a fetch source that yields zero
items without error, this is the outcome: the build step is invoked and
persists a model without transitions, the generate+publish step fails with
`handler.ErrGenerationFailed`, `requestHandler` returns it wrapped, and the
sink's publish operation is never invoked. -/
theorem generation_failed_is_surfaced :
    (∀ (σ τ : Type) (s : Services σ τ) (ev : PostEvent) (target : Sentinel) (err : Error)
        (posted : List String),
      Event.generate (some err) posted ∈ (requestHandler s ev).trace →
      err.Is target = true →
      (requestHandler s ev).err = some (Error.wrap "generate and post: " err "") ∧
      (Error.wrap "generate and post: " err "").Is target = true ∧
      published (requestHandler s ev).trace = posted) ∧
    (∀ (conf : BotConfig) (source : List PullResult) (tokenizer : String → List String)
        (generate : handler.Model → Int → Option String) (publish : String → Option Error)
        (age : ℚ) (ev : PostEvent),
      handler.fetchAll source = .ok [] →
      requestHandler (handlerServices conf source tokenizer generate publish age none) ev
        = Run.mk
            (some (Error.wrap "generate and post: "
              (Error.sentinel handler.ErrGenerationFailed) ""))
            [Event.build none,
              Event.generate (some (Error.sentinel handler.ErrGenerationFailed)) []] ∧
      (Error.wrap "generate and post: "
        (Error.sentinel handler.ErrGenerationFailed) "").Is handler.ErrGenerationFailed = true ∧
      published
        (requestHandler (handlerServices conf source tokenizer generate publish age none)
          ev).trace = []) := by
  constructor
  · intro σ τ s ev target err posted hmem his
    rcases requestHandler_forms s ev with h | ⟨e, h⟩ | ⟨before, e, p, h, hb⟩ | ⟨before, p, h, hb⟩
    · rw [h] at hmem
      simp at hmem
    · rw [h] at hmem
      simp at hmem
    · rw [h] at hmem ⊢
      have : err = e ∧ posted = p := by
        rcases hb with rfl | rfl <;> simpa using hmem
      obtain ⟨rfl, rfl⟩ := this
      refine ⟨rfl, Error.Is_wrap _ _ _ _ his, ?_⟩
      rcases hb with rfl | rfl <;> simp [published]
    · rw [h] at hmem
      rcases hb with rfl | rfl <;> simp at hmem
  · intro conf source tokenizer generate publish age ev hsrc
    have hrun : requestHandler (handlerServices conf source tokenizer generate publish age none) ev
        = Run.mk
            (some (Error.wrap "generate and post: "
              (Error.sentinel handler.ErrGenerationFailed) ""))
            [Event.build none,
              Event.generate (some (Error.sentinel handler.ErrGenerationFailed)) []] := by
      rw [requestHandler_eq (handlerServices conf source tokenizer generate publish age none) ev
        none conf none () false rfl rfl rfl rfl]
      simp [handlerServices, handler.BuildChain, handler.GenerateAndPost, hsrc,
        handler.hasTransitions]
    rw [hrun]
    exact ⟨rfl, rfl, rfl⟩

/-- C6 in the situation of the second test of `main_test.go`: no model, a
source without contents. The generate+publish step is reached and fails with
`handler.ErrGenerationFailed`; the handler returns it wrapped and nothing is
published. -/
theorem generation_failed_is_surfaced_witness :
    Event.generate (some generationFailed) [] ∈ (requestHandler noModelNoItems testEvent).trace ∧
    generationFailed.Is handler.ErrGenerationFailed = true ∧
    handler.fetchAll emptySource = .ok [] ∧
    (requestHandler noModelNoItems testEvent).err
      = some (Error.wrap "generate and post: " generationFailed "") ∧
    published (requestHandler noModelNoItems testEvent).trace = [] :=
  have hrun := (generation_failed_is_surfaced.2 (BotConfig.mk 60 1 0 0) emptySource
    wordTokenizer firstSequence acceptingSink 0 testEvent rfl).1
  have hmem : Event.generate (some generationFailed) []
      ∈ (requestHandler noModelNoItems testEvent).trace := by
    rw [noModelNoItems, hrun]
    simp [generationFailed]
  ⟨hmem, rfl, rfl,
    (generation_failed_is_surfaced.1 _ _ noModelNoItems testEvent handler.ErrGenerationFailed
      generationFailed [] hmem rfl).1,
    (generation_failed_is_surfaced.1 _ _ noModelNoItems testEvent handler.ErrGenerationFailed
      generationFailed [] hmem rfl).2.2⟩

end MarkovBot
